import Mathlib

/-!
Shallow embedding of the Product CRUD service (`src/main.py`).

The service stores `Product` rows in a single table with an autoincrement
integer primary key `id` and a `UNIQUE` constraint on `name`
(`Product.__table_args__`).  We model the store as a list of products kept
in insertion order together with the next id the store will assign.

Floats only ever appear in comparisons (`price > 0`, `price >= price_gte`),
never in arithmetic, so `price` is modelled as `Rat`.

Each HTTP endpoint is modelled in two layers, mirroring FastAPI:
* the handler function (named after the python function: `create_product`,
  `get_product`, `update_product`, `delete_product`, `list_products`),
  which receives an already-parsed payload, exactly as the python handler
  receives a validated pydantic model; and
* an endpoint wrapper (`postProductsEndpoint`, `putProductEndpoint`) that
  first runs pydantic validation on the raw payload — FastAPI performs this
  before the handler body runs — and rejects with a 422 validation error
  without touching the store.

`commit` level behaviour: SQLAlchemy raises `IntegrityError` when the UNIQUE
constraint on `name` or a NOT NULL column constraint is violated; both
handlers catch `IntegrityError`, roll back (leaving the store unchanged) and
return their fixed 400 message.
-/

namespace ProductApi

/-- A stored row of the `products` table (`class Product(Base)` in
`src/main.py`): `id` primary key, `name`/`price`/`quantity` NOT NULL,
`description`/`category` nullable. -/
structure Product where
  id : Nat
  name : String
  price : Rat
  quantity : Int
  description : Option String
  category : Option String
  deriving DecidableEq, Repr

/-- The persistent store: the rows of the `products` table in insertion
order, plus the next primary-key value the autoincrement column will
assign. -/
structure DB where
  products : List Product
  nextId : Nat
  deriving DecidableEq, Repr

/-- The empty database the service starts from. -/
def dbInit : DB := ⟨[], 1⟩

/-- Parsed body of `POST /products/` (`class ProductCreate`): `name`,
`price`, `quantity` required; `description`, `category` optional with
default `None`. -/
structure ProductCreate where
  name : String
  price : Rat
  quantity : Int
  description : Option String
  category : Option String
  deriving DecidableEq, Repr

/-- Parsed body of `PUT /products/{id}` (`class ProductUpdate`): every field
optional.  `pydantic` distinguishes a field that is absent from the request
from one explicitly set to `null` (`dict(exclude_unset=True)`), so each
field is `Option (Option _)`: the outer layer is set/unset, the inner layer
is the supplied value, which may itself be `null` (`none`). -/
structure ProductUpdate where
  name : Option (Option String)
  price : Option (Option Rat)
  quantity : Option (Option Int)
  description : Option (Option String)
  category : Option (Option String)
  deriving DecidableEq, Repr

/-- An HTTP response, reduced to what the claims observe: a success body
(product, list, or message), an `HTTPException` with status code and
`detail`, or the 422 response FastAPI produces when pydantic validation of
the request payload fails. -/
inductive Response where
  | okProduct (p : Product)
  | okList (ps : List Product)
  | okMessage (m : String)
  | error (status : Nat) (detail : String)
  | validationError
  deriving DecidableEq, Repr

/-- `v.strip() == ""`: the string is empty or consists only of whitespace,
i.e. every character is whitespace (whitespace set modelled by
`Char.isWhitespace`). -/
def stripIsEmpty (s : String) : Bool := s.data.all (fun c => c.isWhitespace)

/-- The `empty_string_not_allowed` pydantic validator applied to an optional
string field: a supplied string whose strip is empty is rejected; `None`
passes (the validator only checks `isinstance(v, str)`). -/
def optStrOk : Option String → Bool
  | none => true
  | some s => !stripIsEmpty s

/-- Pydantic validation of a `ProductCreate` body: `name` non-empty after
stripping (validator `empty_string_not_allowed` plus `min_length=1`),
`price > 0` (`gt=0`), `quantity >= 0` (`ge=0`), and `description` /
`category` must not be empty/whitespace-only when they are strings. -/
def validCreate (c : ProductCreate) : Bool :=
  (!stripIsEmpty c.name) && decide (0 < c.price) && decide (0 ≤ c.quantity) &&
    optStrOk c.description && optStrOk c.category

/-- The `empty_string_not_allowed_update` validator on a set-or-unset string
field of `ProductUpdate`: only a supplied string value is checked; unset
fields and explicit `null` pass. -/
def updStrOk : Option (Option String) → Bool
  | some (some s) => !stripIsEmpty s
  | _ => true

/-- `Field(None, gt=0)` on `price` in `ProductUpdate`: the bound applies
only when a numeric value is supplied. -/
def updPriceOk : Option (Option Rat) → Bool
  | some (some x) => decide (0 < x)
  | _ => true

/-- `Field(None, ge=0)` on `quantity` in `ProductUpdate`: the bound applies
only when a numeric value is supplied. -/
def updQuantityOk : Option (Option Int) → Bool
  | some (some n) => decide (0 ≤ n)
  | _ => true

/-- Pydantic validation of a `ProductUpdate` body: each present field must
satisfy its per-field constraint; absent fields and explicit `null`s pass. -/
def validUpdate (u : ProductUpdate) : Bool :=
  updStrOk u.name && updPriceOk u.price && updQuantityOk u.quantity &&
    updStrOk u.description && updStrOk u.category

/-- Value of a NOT NULL column after `setattr` of the set fields
(`for key, value in update_data.items(): setattr(db_product, key, value)`):
an unset field keeps the old value, a set field takes the supplied value,
which may be `null` (and will then violate the NOT NULL constraint at
commit time). -/
def applyReq {α : Type} (old : α) : Option (Option α) → Option α
  | none => some old
  | some v => v

/-- Value of a nullable column after `setattr` of the set fields: an unset
field keeps the old value, a set field takes the supplied value. -/
def applyOpt {α : Type} (old : Option α) : Option (Option α) → Option α
  | none => old
  | some v => v

/-- Replace the first row whose `id` matches (the row
`db.query(Product).filter(Product.id == product_id).first()` returned) by
the updated row; SQLAlchemy updates that row in place at commit. -/
def replaceById : List Product → Nat → Product → List Product
  | [], _, _ => []
  | p :: rest, i, newP =>
    if p.id = i then newP :: rest else p :: replaceById rest i newP

/-- Remove the first row whose `id` matches (`db.delete(db_product)`). -/
def removeById : List Product → Nat → List Product
  | [], _ => []
  | p :: rest, i => if p.id = i then rest else p :: removeById rest i

/-- Handler of `POST /products/` (`create_product` in `src/main.py`): build
a row from the payload, `db.add` + `db.commit`.  A commit that violates the
UNIQUE constraint on `name` raises `IntegrityError`; the handler rolls back
and returns 400 with the fixed duplicate-name message.  (With a validated
payload the NOT NULL columns are all supplied, so the UNIQUE constraint is
the only one that can fire.)  On success the store gains the new row and the
autoincrement counter advances. -/
def create_product (st : DB) (c : ProductCreate) : Response × DB :=
  if ∃ p ∈ st.products, p.name = c.name then
    (.error 400 "Product creation failed due to duplicate name.", st)
  else
    let p : Product := ⟨st.nextId, c.name, c.price, c.quantity, c.description, c.category⟩
    (.okProduct p, ⟨st.products ++ [p], st.nextId + 1⟩)

/-- Handler of `GET /products/{product_id}` (`get_product`): a pure read;
`first()` on the id filter, 404 when absent. -/
def get_product (st : DB) (i : Nat) : Response :=
  match st.products.find? (fun p => p.id == i) with
  | none => .error 404 "Product not found"
  | some p => .okProduct p

/-- Handler of `PUT /products/{product_id}` (`update_product`): look the row
up first (404 when absent); `setattr` every field present in
`product.dict(exclude_unset=True)`; then `db.commit()`.  Commit raises
`IntegrityError` — caught, rolled back, and answered with the fixed 400
duplicate-name message — when a NOT NULL column was set to `null` or when
the new `name` collides with a different row. -/
def update_product (st : DB) (i : Nat) (u : ProductUpdate) : Response × DB :=
  match st.products.find? (fun p => p.id == i) with
  | none => (.error 404 "Product not found", st)
  | some db_product =>
    match applyReq db_product.name u.name, applyReq db_product.price u.price,
        applyReq db_product.quantity u.quantity with
    | some n, some pr, some qt =>
      if ∃ r ∈ st.products, r.id ≠ i ∧ r.name = n then
        (.error 400 "Update failed due to duplicate name.", st)
      else
        let updated : Product :=
          ⟨db_product.id, n, pr, qt, applyOpt db_product.description u.description,
            applyOpt db_product.category u.category⟩
        (.okProduct updated, ⟨replaceById st.products i updated, st.nextId⟩)
    | _, _, _ => (.error 400 "Update failed due to duplicate name.", st)

/-- Handler of `DELETE /products/{product_id}` (`delete_product`): look the
row up first (404 when absent), then delete it and commit. -/
def delete_product (st : DB) (i : Nat) : Response × DB :=
  match st.products.find? (fun p => p.id == i) with
  | none => (.error 404 "Product not found", st)
  | some _ => (.okMessage "Product deleted successfully", ⟨removeById st.products i, st.nextId⟩)

/-- Handler of `GET /products/` (`list_products`): apply the optional
`price >= price_gte` filter, and return `products if products else []`. -/
def list_products (st : DB) (price_gte : Option Rat) : List Product :=
  let products :=
    match price_gte with
    | none => st.products
    | some t => st.products.filter (fun p => decide (t ≤ p.price))
  if products.isEmpty then [] else products

/-- The full `POST /products/` endpoint: FastAPI validates the body against
`ProductCreate` before the handler runs; an invalid body is answered with
422 and the handler (hence the store) is never touched. -/
def postProductsEndpoint (st : DB) (c : ProductCreate) : Response × DB :=
  if validCreate c then create_product st c else (.validationError, st)

/-- The full `PUT /products/{id}` endpoint: FastAPI validates the body
against `ProductUpdate` before the handler runs; an invalid body is
answered with 422 and the handler (hence the store) is never touched. -/
def putProductEndpoint (st : DB) (i : Nat) (u : ProductUpdate) : Response × DB :=
  if validUpdate u then update_product st i u else (.validationError, st)

/-- One API request that can change the store, with its raw payload. -/
inductive Op where
  | create (c : ProductCreate)
  | update (i : Nat) (u : ProductUpdate)
  | delete (i : Nat)
  deriving DecidableEq, Repr

/-- The store after serving one request. -/
def step (st : DB) : Op → DB
  | .create c => (postProductsEndpoint st c).2
  | .update i u => (putProductEndpoint st i u).2
  | .delete i => (delete_product st i).2

/-- A store state is reachable when some sequence of API requests produces
it from the empty database. -/
def Reachable (st : DB) : Prop :=
  ∃ ops : List Op, st = ops.foldl step dbInit

/-- The invariants the store maintains: primary keys are pairwise distinct,
names are pairwise distinct (the UNIQUE constraint), every stored id is
below the autoincrement counter, and every row satisfies the validated
bounds on `price` and `quantity`. -/
def Inv (st : DB) : Prop :=
  st.products.Pairwise (fun p q => p.id ≠ q.id) ∧
  st.products.Pairwise (fun p q => p.name ≠ q.name) ∧
  (∀ p ∈ st.products, p.id < st.nextId) ∧
  (∀ p ∈ st.products, 0 < p.price ∧ 0 ≤ p.quantity)

lemma find?_id_none {ps : List Product} {i : Nat} :
    ps.find? (fun p => p.id == i) = none ↔ ∀ p ∈ ps, p.id ≠ i := by
  simp [List.find?_eq_none]

lemma find?_id_some {ps : List Product} {i : Nat} {p : Product}
    (h : ps.find? (fun q => q.id == i) = some p) : p ∈ ps ∧ p.id = i := by
  refine ⟨List.mem_of_find?_eq_some h, ?_⟩
  have := List.find?_some h
  simpa using this

lemma mem_replaceById {ps : List Product} {i : Nat} {newP q : Product}
    (h : q ∈ replaceById ps i newP) : q ∈ ps ∨ q = newP := by
  induction ps with
  | nil => simp [replaceById] at h
  | cons p rest ih =>
    simp only [replaceById] at h
    split at h
    · rcases List.mem_cons.1 h with h1 | h1
      · exact Or.inr h1
      · exact Or.inl (List.mem_cons_of_mem _ h1)
    · rcases List.mem_cons.1 h with h1 | h1
      · exact Or.inl (h1 ▸ List.mem_cons_self _ _)
      · rcases ih h1 with h2 | h2
        · exact Or.inl (List.mem_cons_of_mem _ h2)
        · exact Or.inr h2

lemma replaceById_find?_self {ps : List Product} {i : Nat} {p : Product}
    (h : ps.find? (fun q => q.id == i) = some p) : replaceById ps i p = ps := by
  induction ps with
  | nil => simp at h
  | cons a rest ih =>
    by_cases ha : a.id = i
    · rw [List.find?_cons_of_pos (p := fun q : Product => q.id == i) _ (by simpa using ha)] at h
      obtain rfl : a = p := by injection h
      simp [replaceById, ha]
    · rw [List.find?_cons_of_neg (p := fun q : Product => q.id == i) _ (by simpa using ha)] at h
      simp [replaceById, ha, ih h]

lemma replaceById_pairwise_id {ps : List Product} {i : Nat} {newP : Product}
    (hnew : newP.id = i)
    (hid : ps.Pairwise (fun p q => p.id ≠ q.id)) :
    (replaceById ps i newP).Pairwise (fun p q => p.id ≠ q.id) := by
  induction ps with
  | nil => simp [replaceById]
  | cons p rest ih =>
    rcases List.pairwise_cons.1 hid with ⟨hhead, htail⟩
    simp only [replaceById]
    split
    · rename_i hpid
      refine List.pairwise_cons.2 ⟨?_, htail⟩
      intro q hq
      rw [hnew, ← hpid]
      exact hhead q hq
    · rename_i hpid
      refine List.pairwise_cons.2 ⟨?_, ih htail⟩
      intro q hq
      rcases mem_replaceById hq with h1 | h1
      · exact hhead q h1
      · rw [h1, hnew]
        exact hpid

lemma replaceById_pairwise_name {ps : List Product} {i : Nat} {newP : Product}
    (hid : ps.Pairwise (fun p q => p.id ≠ q.id))
    (hname : ps.Pairwise (fun p q => p.name ≠ q.name))
    (hok : ∀ r ∈ ps, r.id = i ∨ r.name ≠ newP.name) :
    (replaceById ps i newP).Pairwise (fun p q => p.name ≠ q.name) := by
  induction ps with
  | nil => simp [replaceById]
  | cons p rest ih =>
    rcases List.pairwise_cons.1 hid with ⟨hidhead, hidtail⟩
    rcases List.pairwise_cons.1 hname with ⟨hnamehead, hnametail⟩
    simp only [replaceById]
    split
    · rename_i hpid
      refine List.pairwise_cons.2 ⟨?_, hnametail⟩
      intro q hq
      rcases hok q (List.mem_cons_of_mem _ hq) with h1 | h1
      · exact absurd (hpid.trans h1.symm) (hidhead q hq)
      · exact fun hc => h1 (hc ▸ rfl)
    · rename_i hpid
      refine List.pairwise_cons.2 ⟨?_, ?_⟩
      · intro q hq
        rcases mem_replaceById hq with h1 | h1
        · exact hnamehead q h1
        · rcases hok p (List.mem_cons_self _ _) with h2 | h2
          · exact absurd h2 hpid
          · rw [h1]
            exact h2
      · exact ih hidtail hnametail (fun r hr => hok r (List.mem_cons_of_mem _ hr))

lemma removeById_sublist (ps : List Product) (i : Nat) :
    List.Sublist (removeById ps i) ps := by
  induction ps with
  | nil => simp [removeById]
  | cons p rest ih =>
    simp only [removeById]
    split
    · exact List.sublist_cons_self p rest
    · exact ih.cons₂ p

lemma validCreate_bounds {c : ProductCreate} (h : validCreate c = true) :
    0 < c.price ∧ 0 ≤ c.quantity := by
  simp only [validCreate, Bool.and_eq_true, decide_eq_true_eq] at h
  exact ⟨h.1.1.1.2, h.1.1.2⟩

lemma validUpdate_price {u : ProductUpdate} {x : Rat}
    (h : validUpdate u = true) (hx : u.price = some (some x)) : 0 < x := by
  simp only [validUpdate, Bool.and_eq_true] at h
  have := h.1.1.1.2
  rw [hx] at this
  simpa [updPriceOk] using this

lemma validUpdate_quantity {u : ProductUpdate} {n : Int}
    (h : validUpdate u = true) (hn : u.quantity = some (some n)) : 0 ≤ n := by
  simp only [validUpdate, Bool.and_eq_true] at h
  have := h.1.1.2
  rw [hn] at this
  simpa [updQuantityOk] using this

lemma inv_dbInit : Inv dbInit := by
  simp [Inv, dbInit]

lemma inv_step (st : DB) (op : Op) (h : Inv st) : Inv (step st op) := by
  obtain ⟨hid, hname, hbound, hval⟩ := h
  cases op with
  | create c =>
    simp only [step, postProductsEndpoint]
    split
    · rename_i hv
      simp only [create_product]
      split
      · exact ⟨hid, hname, hbound, hval⟩
      · rename_i hdup
        push_neg at hdup
        refine ⟨?_, ?_, ?_, ?_⟩
        · rw [List.pairwise_append]
          refine ⟨hid, by simp, ?_⟩
          intro a ha b hb
          simp only [List.mem_singleton] at hb
          subst hb
          exact Nat.ne_of_lt (hbound a ha)
        · rw [List.pairwise_append]
          refine ⟨hname, by simp, ?_⟩
          intro a ha b hb
          simp only [List.mem_singleton] at hb
          subst hb
          exact hdup a ha
        · intro p hp
          rcases List.mem_append.1 hp with h1 | h1
          · exact Nat.lt_succ_of_lt (hbound p h1)
          · simp only [List.mem_singleton] at h1
            subst h1
            exact Nat.lt_succ_self _
        · intro p hp
          rcases List.mem_append.1 hp with h1 | h1
          · exact hval p h1
          · simp only [List.mem_singleton] at h1
            subst h1
            exact validCreate_bounds hv
    · exact ⟨hid, hname, hbound, hval⟩
  | update i u =>
    simp only [step, putProductEndpoint]
    split
    · rename_i hv
      simp only [update_product]
      split
      · exact ⟨hid, hname, hbound, hval⟩
      · rename_i db_product heq
        split
        · rename_i n pr qt hn hpr hqt
          split
          · exact ⟨hid, hname, hbound, hval⟩
          · rename_i hdup
            push_neg at hdup
            obtain ⟨hmem, hpid⟩ := find?_id_some heq
            have hupdid : (⟨db_product.id, n, pr, qt,
                applyOpt db_product.description u.description,
                applyOpt db_product.category u.category⟩ : Product).id = i := hpid
            refine ⟨replaceById_pairwise_id hupdid hid, ?_, ?_, ?_⟩
            · refine replaceById_pairwise_name hid hname ?_
              intro r hr
              by_cases hri : r.id = i
              · exact Or.inl hri
              · exact Or.inr (hdup r hr hri)
            · intro p hp
              rcases mem_replaceById hp with h1 | h1
              · exact hbound p h1
              · rw [h1]
                exact hpid ▸ (hpid.symm ▸ hbound db_product hmem)
            · intro p hp
              rcases mem_replaceById hp with h1 | h1
              · exact hval p h1
              · subst h1
                constructor
                · show 0 < pr
                  cases hu : u.price with
                  | none =>
                    rw [hu] at hpr
                    simp only [applyReq] at hpr
                    obtain rfl : db_product.price = pr := by injection hpr
                    exact (hval db_product hmem).1
                  | some v =>
                    rw [hu] at hpr
                    simp only [applyReq] at hpr
                    subst hpr
                    exact validUpdate_price hv hu
                · show 0 ≤ qt
                  cases hu : u.quantity with
                  | none =>
                    rw [hu] at hqt
                    simp only [applyReq] at hqt
                    obtain rfl : db_product.quantity = qt := by injection hqt
                    exact (hval db_product hmem).2
                  | some v =>
                    rw [hu] at hqt
                    simp only [applyReq] at hqt
                    subst hqt
                    exact validUpdate_quantity hv hu
        · exact ⟨hid, hname, hbound, hval⟩
    · exact ⟨hid, hname, hbound, hval⟩
  | delete i =>
    simp only [step, delete_product]
    split
    · exact ⟨hid, hname, hbound, hval⟩
    · have hsub := removeById_sublist st.products i
      refine ⟨hid.sublist hsub, hname.sublist hsub, ?_, ?_⟩
      · intro p hp
        exact hbound p (hsub.subset hp)
      · intro p hp
        exact hval p (hsub.subset hp)

lemma foldl_inv (ops : List Op) (st : DB) (h : Inv st) : Inv (ops.foldl step st) := by
  induction ops generalizing st with
  | nil => exact h
  | cons op rest ih => exact ih _ (inv_step st op h)

lemma reachable_inv {st : DB} (h : Reachable st) : Inv st := by
  obtain ⟨ops, rfl⟩ := h
  exact foldl_inv ops dbInit inv_dbInit

lemma update_product_ok {st : DB} {i : Nat} {u : ProductUpdate} {q : Product} {st' : DB}
    (h : update_product st i u = (.okProduct q, st')) :
    ∃ p, st.products.find? (fun r => r.id == i) = some p ∧
      applyReq p.name u.name = some q.name ∧
      applyReq p.price u.price = some q.price ∧
      applyReq p.quantity u.quantity = some q.quantity ∧
      q.description = applyOpt p.description u.description ∧
      q.category = applyOpt p.category u.category ∧
      q.id = p.id ∧
      st' = ⟨replaceById st.products i q, st.nextId⟩ := by
  unfold update_product at h
  split at h
  · simp at h
  · rename_i p heq
    split at h
    · rename_i n pr qt hn hpr hqt
      split at h
      · simp at h
      · rw [Prod.mk.injEq] at h
        obtain ⟨h1, h2⟩ := h
        obtain rfl : (⟨p.id, n, pr, qt, applyOpt p.description u.description,
            applyOpt p.category u.category⟩ : Product) = q := by
          injection h1
        exact ⟨p, heq, hn, hpr, hqt, rfl, rfl, rfl, h2.symm⟩
    · simp at h

/-- C3: updating an existing product with a payload whose new name equals the
name of a different existing product fails with 400 "Update failed due to
duplicate name." and leaves the store exactly as it was. -/
theorem claim_C3 (st : DB) (i : Nat) (u : ProductUpdate) (p r : Product)
    (hp : st.products.find? (fun x => x.id == i) = some p)
    (hr : r ∈ st.products) (hrid : r.id ≠ i) (hname : u.name = some (some r.name)) :
    update_product st i u = (.error 400 "Update failed due to duplicate name.", st) := by
  simp only [update_product, hp]
  have hnm : applyReq p.name u.name = some r.name := by rw [hname]; rfl
  rw [hnm]
  cases hpr : applyReq p.price u.price with
  | none => rfl
  | some pr =>
    cases hqt : applyReq p.quantity u.quantity with
    | none => rfl
    | some qt =>
      have hdup : ∃ x ∈ st.products, x.id ≠ i ∧ x.name = r.name := ⟨r, hr, hrid, rfl⟩
      simp [hdup]

/-- C3 witness: in a store with "Widget" (id 1) and "Gadget" (id 2), renaming
id 1 to "Gadget" yields the duplicate-name conflict and the store is
unchanged. -/
theorem claim_C3_witness :
    update_product ⟨[⟨1, "Widget", 10, 5, none, none⟩, ⟨2, "Gadget", 20, 3, none, none⟩], 3⟩ 1
        ⟨some (some "Gadget"), none, none, none, none⟩ =
      (.error 400 "Update failed due to duplicate name.",
        ⟨[⟨1, "Widget", 10, 5, none, none⟩, ⟨2, "Gadget", 20, 3, none, none⟩], 3⟩) :=
  claim_C3 ⟨[⟨1, "Widget", 10, 5, none, none⟩, ⟨2, "Gadget", 20, 3, none, none⟩], 3⟩ 1
    ⟨some (some "Gadget"), none, none, none, none⟩
    ⟨1, "Widget", 10, 5, none, none⟩ ⟨2, "Gadget", 20, 3, none, none⟩
    (by decide) (by decide) (by decide) rfl

/-- C4: get, update and delete on an id no stored product has all yield the
404 "Product not found" error, and the update and delete leave the store
unchanged (get is a pure read). -/
theorem claim_C4 (st : DB) (i : Nat) (u : ProductUpdate)
    (h : ∀ p ∈ st.products, p.id ≠ i) :
    get_product st i = .error 404 "Product not found" ∧
    update_product st i u = (.error 404 "Product not found", st) ∧
    delete_product st i = (.error 404 "Product not found", st) := by
  have hf : st.products.find? (fun p => p.id == i) = none := find?_id_none.2 h
  exact ⟨by simp [get_product, hf], by simp [update_product, hf], by simp [delete_product, hf]⟩

/-- C4 witness: on a store holding only "Widget" with id 1, the three
handlers answer id 9999 with the same 404 error and unchanged store. -/
theorem claim_C4_witness :
    get_product ⟨[⟨1, "Widget", 10, 5, none, none⟩], 2⟩ 9999 =
      .error 404 "Product not found" ∧
    update_product ⟨[⟨1, "Widget", 10, 5, none, none⟩], 2⟩ 9999
        ⟨none, some (some 20), none, none, none⟩ =
      (.error 404 "Product not found", ⟨[⟨1, "Widget", 10, 5, none, none⟩], 2⟩) ∧
    delete_product ⟨[⟨1, "Widget", 10, 5, none, none⟩], 2⟩ 9999 =
      (.error 404 "Product not found", ⟨[⟨1, "Widget", 10, 5, none, none⟩], 2⟩) :=
  claim_C4 ⟨[⟨1, "Widget", 10, 5, none, none⟩], 2⟩ 9999
    ⟨none, some (some 20), none, none, none⟩ (by decide)

/-- C5: the list handler returns exactly the stored products with
`price >= t` when the `price_gte` filter is given, the empty list (never a
null/absent value) when no product qualifies, and all stored products when
no filter is given. -/
theorem claim_C5 (st : DB) (t : Rat) :
    (∀ p, p ∈ list_products st (some t) ↔ p ∈ st.products ∧ t ≤ p.price) ∧
    list_products st none = st.products ∧
    ((∀ p ∈ st.products, ¬(t ≤ p.price)) → list_products st (some t) = []) := by
  have h1 : list_products st (some t) = st.products.filter (fun p => decide (t ≤ p.price)) := by
    simp only [list_products]
    split
    · rename_i he
      rw [List.isEmpty_iff] at he
      exact he.symm
    · rfl
  refine ⟨?_, ?_, ?_⟩
  · intro p
    rw [h1]
    simp [List.mem_filter]
  · simp only [list_products]
    split
    · rename_i he
      rw [List.isEmpty_iff] at he
      exact he.symm
    · rfl
  · intro hnone
    rw [h1]
    rw [List.filter_eq_nil_iff]
    intro p hp
    simpa using hnone p hp

/-- C5 witness: with items priced 10 and 20 stored, threshold 15 selects
only the 20-priced item, no filter returns both, and threshold 15 over only
the 10-priced item yields the empty list. -/
theorem claim_C5_witness :
    (⟨2, "B", 20, 1, none, none⟩ : Product) ∈
      list_products ⟨[⟨1, "A", 10, 1, none, none⟩, ⟨2, "B", 20, 1, none, none⟩], 3⟩ (some 15) ∧
    (⟨1, "A", 10, 1, none, none⟩ : Product) ∉
      list_products ⟨[⟨1, "A", 10, 1, none, none⟩, ⟨2, "B", 20, 1, none, none⟩], 3⟩ (some 15) ∧
    list_products ⟨[⟨1, "A", 10, 1, none, none⟩, ⟨2, "B", 20, 1, none, none⟩], 3⟩ none =
      [⟨1, "A", 10, 1, none, none⟩, ⟨2, "B", 20, 1, none, none⟩] ∧
    list_products ⟨[⟨1, "A", 10, 1, none, none⟩], 2⟩ (some 15) = [] := by
  have h := claim_C5 ⟨[⟨1, "A", 10, 1, none, none⟩, ⟨2, "B", 20, 1, none, none⟩], 3⟩ 15
  have h' := claim_C5 ⟨[⟨1, "A", 10, 1, none, none⟩], 2⟩ 15
  refine ⟨(h.1 _).2 ⟨by decide, by decide⟩, ?_, h.2.1, h'.2.2 (by decide)⟩
  intro hc
  exact absurd ((h.1 _).1 hc).2 (by decide)

/-- C7: in every store state reachable through the API from the empty
database, every stored product has `price > 0` and `quantity >= 0`. -/
theorem claim_C7 (st : DB) (h : Reachable st) :
    ∀ p ∈ st.products, 0 < p.price ∧ 0 ≤ p.quantity :=
  (reachable_inv h).2.2.2

/-- C7 witness: the store reached by creating "Widget" (price 10,
quantity 5) satisfies the bounds on its single row. -/
theorem claim_C7_witness :
    0 < (⟨1, "Widget", 10, 5, none, none⟩ : Product).price ∧
    0 ≤ (⟨1, "Widget", 10, 5, none, none⟩ : Product).quantity :=
  claim_C7 (List.foldl step dbInit [Op.create ⟨"Widget", 10, 5, none, none⟩])
    ⟨[Op.create ⟨"Widget", 10, 5, none, none⟩], rfl⟩
    ⟨1, "Widget", 10, 5, none, none⟩ (by decide)

/-- C1: in every reachable store no two products share a name, and a valid
create request whose name is already stored fails with the 400
duplicate-name error and leaves the store exactly as it was. -/
theorem claim_C1 (st : DB) (c : ProductCreate) :
    (Reachable st → st.products.Pairwise (fun p q => p.name ≠ q.name)) ∧
    (validCreate c = true → (∃ p ∈ st.products, p.name = c.name) →
      postProductsEndpoint st c =
        (.error 400 "Product creation failed due to duplicate name.", st)) := by
  refine ⟨fun h => (reachable_inv h).2.1, fun hv hdup => ?_⟩
  simp [postProductsEndpoint, hv, create_product, hdup]

/-- C1 witness: after creating "Widget", names are pairwise distinct and a
second create of "Widget" fails with the duplicate-name error, store
unchanged. -/
theorem claim_C1_witness :
    (List.foldl step dbInit [Op.create ⟨"Widget", 10, 5, none, none⟩]).products.Pairwise
      (fun p q => p.name ≠ q.name) ∧
    postProductsEndpoint (List.foldl step dbInit [Op.create ⟨"Widget", 10, 5, none, none⟩])
        ⟨"Widget", 7, 3, none, none⟩ =
      (.error 400 "Product creation failed due to duplicate name.",
        List.foldl step dbInit [Op.create ⟨"Widget", 10, 5, none, none⟩]) := by
  have h := claim_C1 (List.foldl step dbInit [Op.create ⟨"Widget", 10, 5, none, none⟩])
      ⟨"Widget", 7, 3, none, none⟩
  exact ⟨h.1 ⟨[Op.create ⟨"Widget", 10, 5, none, none⟩], rfl⟩, h.2 (by decide) (by decide)⟩

/-- C2: when a valid partial update of an existing product succeeds, each
field present in the payload takes exactly the supplied value, each absent
field keeps its pre-update value, the id is unchanged, and the store only
replaces that one row. -/
theorem claim_C2 (st : DB) (i : Nat) (u : ProductUpdate) (p q : Product) (st' : DB)
    (hp : st.products.find? (fun r => r.id == i) = some p)
    (hv : validUpdate u = true)
    (_hsub : u.name = none ∨ u.price = none ∨ u.quantity = none ∨
      u.description = none ∨ u.category = none)
    (hok : putProductEndpoint st i u = (.okProduct q, st')) :
    q.id = p.id ∧
    (∀ n, u.name = some (some n) → q.name = n) ∧
    (u.name = none → q.name = p.name) ∧
    (∀ x, u.price = some (some x) → q.price = x) ∧
    (u.price = none → q.price = p.price) ∧
    (∀ z, u.quantity = some (some z) → q.quantity = z) ∧
    (u.quantity = none → q.quantity = p.quantity) ∧
    (∀ d, u.description = some d → q.description = d) ∧
    (u.description = none → q.description = p.description) ∧
    (∀ d, u.category = some d → q.category = d) ∧
    (u.category = none → q.category = p.category) ∧
    st' = ⟨replaceById st.products i q, st.nextId⟩ := by
  unfold putProductEndpoint at hok
  rw [if_pos hv] at hok
  obtain ⟨p', hp', hn, hpr, hqt, hd, hc, hqid, hst⟩ := update_product_ok hok
  rw [hp] at hp'
  obtain rfl : p = p' := by injection hp'
  refine ⟨hqid, ?_, ?_, ?_, ?_, ?_, ?_, ?_, ?_, ?_, ?_, hst⟩
  · intro n hun
    rw [hun] at hn
    simp only [applyReq] at hn
    injection hn with hn
    exact hn.symm
  · intro hun
    rw [hun] at hn
    simp only [applyReq] at hn
    injection hn with hn
    exact hn.symm
  · intro x hux
    rw [hux] at hpr
    simp only [applyReq] at hpr
    injection hpr with hpr
    exact hpr.symm
  · intro hux
    rw [hux] at hpr
    simp only [applyReq] at hpr
    injection hpr with hpr
    exact hpr.symm
  · intro z huz
    rw [huz] at hqt
    simp only [applyReq] at hqt
    injection hqt with hqt
    exact hqt.symm
  · intro huz
    rw [huz] at hqt
    simp only [applyReq] at hqt
    injection hqt with hqt
    exact hqt.symm
  · intro d hud
    rw [hud] at hd
    simpa [applyOpt] using hd
  · intro hud
    rw [hud] at hd
    simpa [applyOpt] using hd
  · intro d hud
    rw [hud] at hc
    simpa [applyOpt] using hc
  · intro hud
    rw [hud] at hc
    simpa [applyOpt] using hc

/-- C2 witness: updating only the price of "Widget" from 10 to 20 keeps
name, quantity, description, category and id, and replaces just that row. -/
theorem claim_C2_witness :
    putProductEndpoint ⟨[⟨1, "Widget", 10, 5, none, none⟩], 2⟩ 1
        ⟨none, some (some 20), none, none, none⟩ =
      (.okProduct ⟨1, "Widget", 20, 5, none, none⟩, ⟨[⟨1, "Widget", 20, 5, none, none⟩], 2⟩) ∧
    (⟨1, "Widget", 20, 5, none, none⟩ : Product).price = 20 ∧
    (⟨1, "Widget", 20, 5, none, none⟩ : Product).name =
      (⟨1, "Widget", 10, 5, none, none⟩ : Product).name ∧
    (⟨1, "Widget", 20, 5, none, none⟩ : Product).quantity =
      (⟨1, "Widget", 10, 5, none, none⟩ : Product).quantity := by
  have h := claim_C2 ⟨[⟨1, "Widget", 10, 5, none, none⟩], 2⟩ 1
      ⟨none, some (some 20), none, none, none⟩
      ⟨1, "Widget", 10, 5, none, none⟩ ⟨1, "Widget", 20, 5, none, none⟩
      ⟨[⟨1, "Widget", 20, 5, none, none⟩], 2⟩
      (by decide) (by decide) (Or.inl rfl) (by decide)
  obtain ⟨h1, h2, h3, h4, h5, h6, h7, h8, h9, h10, h11, h12⟩ := h
  exact ⟨by decide, h4 20 rfl, h3 rfl, h7 rfl⟩

/-- C6 counterexample: a PUT whose payload is invalid (price 0) and whose id
is absent from the store is answered with the 422 validation error, not with
the 404 "Product not found" claimed: FastAPI validates the body before the
handler's lookup runs. -/
theorem claim_C6_counterexample :
    (∀ p ∈ dbInit.products, p.id ≠ 1) ∧
    putProductEndpoint dbInit 1 ⟨none, some (some 0), none, none, none⟩ =
      (.validationError, dbInit) ∧
    (putProductEndpoint dbInit 1 ⟨none, some (some 0), none, none, none⟩).1 ≠
      .error 404 "Product not found" :=
  ⟨by decide, by decide, by decide⟩

/-- C6 amended: payload validation runs before the handler, so a valid
payload sent to a nonexistent id yields the not-found response regardless of
the payload's content, while an invalid payload yields the validation error
(not the not-found response) even when the id does not exist; neither case
changes the store. -/
theorem claim_C6_amended (st : DB) (i : Nat) (u : ProductUpdate) :
    (validUpdate u = true → (∀ p ∈ st.products, p.id ≠ i) →
      putProductEndpoint st i u = (.error 404 "Product not found", st)) ∧
    (validUpdate u = false → putProductEndpoint st i u = (.validationError, st)) := by
  constructor
  · intro hv h
    have hf : st.products.find? (fun p => p.id == i) = none := find?_id_none.2 h
    unfold putProductEndpoint
    rw [if_pos hv]
    simp [update_product, hf]
  · intro hv
    unfold putProductEndpoint
    rw [if_neg (by simp [hv])]

/-- C6 amended witness: on the empty store, a valid payload to id 3 gets
404 while a whitespace-name payload to id 3 gets the validation error. -/
theorem claim_C6_amended_witness :
    putProductEndpoint dbInit 3 ⟨none, none, none, none, none⟩ =
      (.error 404 "Product not found", dbInit) ∧
    putProductEndpoint dbInit 3 ⟨some (some ""), none, none, none, none⟩ =
      (.validationError, dbInit) := by
  have h1 := claim_C6_amended dbInit 3 ⟨none, none, none, none, none⟩
  have h2 := claim_C6_amended dbInit 3 ⟨some (some ""), none, none, none, none⟩
  exact ⟨h1.1 (by decide) (by decide), h2.2 (by decide)⟩

/-- C8: an empty-after-stripping string supplied for name, description or
category makes create and update requests fail pydantic validation, and the
store is untouched. -/
theorem claim_C8 (st : DB) (i : Nat) (c : ProductCreate) (u : ProductUpdate) (s : String)
    (hs : stripIsEmpty s = true) :
    ((c.name = s ∨ c.description = some s ∨ c.category = some s) →
      validCreate c = false ∧ postProductsEndpoint st c = (.validationError, st)) ∧
    ((u.name = some (some s) ∨ u.description = some (some s) ∨ u.category = some (some s)) →
      validUpdate u = false ∧ putProductEndpoint st i u = (.validationError, st)) := by
  have hc : (c.name = s ∨ c.description = some s ∨ c.category = some s) →
      validCreate c = false := by
    intro h
    rcases h with h | h | h <;> simp [validCreate, optStrOk, h, hs]
  have hu : (u.name = some (some s) ∨ u.description = some (some s) ∨
      u.category = some (some s)) → validUpdate u = false := by
    intro h
    rcases h with h | h | h <;> simp [validUpdate, updStrOk, h, hs]
  constructor
  · intro h
    refine ⟨hc h, ?_⟩
    unfold postProductsEndpoint
    rw [if_neg (by simp [hc h])]
  · intro h
    refine ⟨hu h, ?_⟩
    unfold putProductEndpoint
    rw [if_neg (by simp [hu h])]

/-- C8 witness: a whitespace-only create name and an empty update
description both fail validation on the empty store, which is unchanged. -/
theorem claim_C8_witness :
    validCreate ⟨"   ", 10, 5, none, none⟩ = false ∧
    postProductsEndpoint dbInit ⟨"   ", 10, 5, none, none⟩ = (.validationError, dbInit) ∧
    validUpdate ⟨none, none, none, some (some ""), none⟩ = false ∧
    putProductEndpoint dbInit 1 ⟨none, none, none, some (some ""), none⟩ =
      (.validationError, dbInit) := by
  have h1 := claim_C8 dbInit 1 ⟨"   ", 10, 5, none, none⟩
      ⟨none, none, none, none, none⟩ "   " (by decide)
  have h2 := claim_C8 dbInit 1 ⟨"x", 10, 5, none, none⟩
      ⟨none, none, none, some (some ""), none⟩ "" (by decide)
  obtain ⟨ha, hb⟩ := h1.1 (Or.inl rfl)
  obtain ⟨hd, he⟩ := h2.2 (Or.inr (Or.inl rfl))
  exact ⟨ha, hb, hd, he⟩

/-- C9: an explicit null for description (or category) passes update
validation, and because an explicitly supplied null counts as a set field,
the update stores null for that field rather than leaving it unchanged. -/
theorem claim_C9 (st : DB) (i : Nat) (p : Product)
    (hp : st.products.find? (fun r => r.id == i) = some p)
    (huniq : ∀ r ∈ st.products, r.name = p.name → r.id = i) :
    validUpdate ⟨none, none, none, some none, none⟩ = true ∧
    validUpdate ⟨none, none, none, none, some none⟩ = true ∧
    putProductEndpoint st i ⟨none, none, none, some none, none⟩ =
      (.okProduct ⟨p.id, p.name, p.price, p.quantity, none, p.category⟩,
        ⟨replaceById st.products i ⟨p.id, p.name, p.price, p.quantity, none, p.category⟩,
          st.nextId⟩) ∧
    putProductEndpoint st i ⟨none, none, none, none, some none⟩ =
      (.okProduct ⟨p.id, p.name, p.price, p.quantity, p.description, none⟩,
        ⟨replaceById st.products i ⟨p.id, p.name, p.price, p.quantity, p.description, none⟩,
          st.nextId⟩) := by
  have hnd : ¬∃ r ∈ st.products, r.id ≠ i ∧ r.name = p.name := by
    rintro ⟨r, hr, hne, hnm⟩
    exact hne (huniq r hr hnm)
  refine ⟨rfl, rfl, ?_, ?_⟩
  · have hstep : putProductEndpoint st i ⟨none, none, none, some none, none⟩ =
        update_product st i ⟨none, none, none, some none, none⟩ := rfl
    rw [hstep]
    simp only [update_product, hp, applyReq, applyOpt]
    rw [if_neg hnd]
  · have hstep : putProductEndpoint st i ⟨none, none, none, none, some none⟩ =
        update_product st i ⟨none, none, none, none, some none⟩ := rfl
    rw [hstep]
    simp only [update_product, hp, applyReq, applyOpt]
    rw [if_neg hnd]

/-- C9 witness: with "Widget" stored holding a description and a category,
the two explicit-null updates each null out exactly their field. -/
theorem claim_C9_witness :
    validUpdate ⟨none, none, none, some none, none⟩ = true ∧
    validUpdate ⟨none, none, none, none, some none⟩ = true ∧
    putProductEndpoint ⟨[⟨1, "Widget", 10, 5, some "d", some "c"⟩], 2⟩ 1
        ⟨none, none, none, some none, none⟩ =
      (.okProduct ⟨1, "Widget", 10, 5, none, some "c"⟩,
        ⟨replaceById [⟨1, "Widget", 10, 5, some "d", some "c"⟩] 1
          ⟨1, "Widget", 10, 5, none, some "c"⟩, 2⟩) ∧
    putProductEndpoint ⟨[⟨1, "Widget", 10, 5, some "d", some "c"⟩], 2⟩ 1
        ⟨none, none, none, none, some none⟩ =
      (.okProduct ⟨1, "Widget", 10, 5, some "d", none⟩,
        ⟨replaceById [⟨1, "Widget", 10, 5, some "d", some "c"⟩] 1
          ⟨1, "Widget", 10, 5, some "d", none⟩, 2⟩) :=
  claim_C9 ⟨[⟨1, "Widget", 10, 5, some "d", some "c"⟩], 2⟩ 1
    ⟨1, "Widget", 10, 5, some "d", some "c"⟩ (by decide) (by decide)

/-- C10: a PUT with the empty payload on an existing product succeeds,
returns the stored record with every field unchanged, and leaves the store
exactly as it was. -/
theorem claim_C10 (st : DB) (i : Nat) (p : Product)
    (hp : st.products.find? (fun r => r.id == i) = some p)
    (huniq : ∀ r ∈ st.products, r.name = p.name → r.id = i) :
    putProductEndpoint st i ⟨none, none, none, none, none⟩ = (.okProduct p, st) := by
  have hnd : ¬∃ r ∈ st.products, r.id ≠ i ∧ r.name = p.name := by
    rintro ⟨r, hr, hne, hnm⟩
    exact hne (huniq r hr hnm)
  have hstep : putProductEndpoint st i ⟨none, none, none, none, none⟩ =
      update_product st i ⟨none, none, none, none, none⟩ := rfl
  rw [hstep]
  simp only [update_product, hp, applyReq, applyOpt]
  rw [if_neg hnd]
  rw [replaceById_find?_self hp]

/-- C10 witness: the empty-payload update of "Widget" (id 1) returns the
stored record and the store is unchanged. -/
theorem claim_C10_witness :
    putProductEndpoint ⟨[⟨1, "Widget", 10, 5, none, none⟩], 2⟩ 1
        ⟨none, none, none, none, none⟩ =
      (.okProduct ⟨1, "Widget", 10, 5, none, none⟩, ⟨[⟨1, "Widget", 10, 5, none, none⟩], 2⟩) :=
  claim_C10 ⟨[⟨1, "Widget", 10, 5, none, none⟩], 2⟩ 1 ⟨1, "Widget", 10, 5, none, none⟩
    (by decide) (by decide)

end ProductApi
